import Mathlib

/-!
Verification development for a chat-platform game engine.

The embedding follows the Python sources: main.py (process entry and token
loading), src/game.py (Game session, scheduler loop, tick, player map) and
src/templating.py (templates, stage groups, actors, weighted selection).
Floats are modelled as rationals, ints as Int, Python dicts keyed by user id
as association lists with dict update semantics, and raising code as
Except-valued functions whose error type enumerates the raise sites.
-/

set_option maxRecDepth 4000

/-- The opening-brace character, used by the format-string scanner. -/
def lbraceC : Char := Char.ofNat 123

/-- The closing-brace character, used by the format-string scanner. -/
def rbraceC : Char := Char.ofNat 125

/-- A single-quote string, used to build the Python log messages verbatim. -/
def sqS : String := String.singleton (Char.ofNat 39)

/-- Errors of the embedded Python code, one constructor per raise site. -/
inductive PyError where
  /-- random.choices on an empty pool (cum_weights[-1] IndexError) or a pool
  whose weights sum to zero or less (ValueError); the spec calls both
  EmptyPoolError. -/
  | emptyPool
  /-- str.format met a named replacement field that is not among the keyword
  arguments (KeyError); the spec calls this RenderError. -/
  | fieldKeyError (k : String)
  /-- Dictionary lookup of a stage missing from Actor.stages (KeyError). -/
  | stageKeyError (s : Nat)
  /-- Sequence index out of range (IndexError). -/
  | indexError
  /-- A variable read before assignment, as for sleep_time when no match arm
  applies (NameError). -/
  | nameError
  /-- Malformed format string (ValueError). -/
  | valueError
  /-- Game.remove_player on an absent id: the source raises
  NotImplementedError as a placeholder whose meaning, per its own comment,
  is that the user is in no game; the spec calls this NotFoundError. -/
  | notFound
  deriving DecidableEq, Repr

/-- A primitive Python value appearing inside the state dict. -/
inductive PyVal where
  | int (i : Int)
  | str (s : String)
  deriving DecidableEq, Repr

/-- An argument passed to str.format: a primitive or a dict of primitives. -/
inductive FmtArg where
  | val (v : PyVal)
  | dict (d : List (String × PyVal))
  deriving DecidableEq, Repr

/-- Python repr of a primitive value, used when a dict is stringified. -/
def pyValRepr : PyVal → String
  | .int i => toString i
  | .str s => sqS ++ s ++ sqS

/-- Python str of a format argument; a dict renders as its repr. -/
def pyStr : FmtArg → String
  | .val (.int i) => toString i
  | .val (.str s) => s
  | .dict d =>
      "\x7b" ++
        String.intercalate ", "
          (d.map (fun kv => pyValRepr (.str kv.1) ++ ": " ++ pyValRepr kv.2)) ++
      "\x7d"

/-- Errors of the str.format scanner. -/
inductive FmtError where
  /-- A named field absent from the keyword arguments (KeyError). -/
  | missingKey (k : String)
  /-- A positional index beyond the argument list (IndexError). -/
  | indexOutOfRange
  /-- An unmatched brace (ValueError). -/
  | badFormat
  /-- Scanner fuel ran out; unreachable, the fuel is the character count. -/
  | noFuel
  deriving DecidableEq, Repr

/-- How each format-scanner error surfaces as a Python exception. -/
def fmtErrToPy : FmtError → PyError
  | .missingKey k => .fieldKeyError k
  | .indexOutOfRange => .indexError
  | .badFormat => .valueError
  | .noFuel => .valueError

/-- Association-list lookup with string keys, first match wins. -/
def lookupStr {α : Type} : List (String × α) → String → Option α
  | [], _ => none
  | kv :: rest, k => if kv.1 = k then some kv.2 else lookupStr rest k

/-- Split a character list at the first closing brace; none when unmatched. -/
def splitAtRBrace : List Char → Option (List Char × List Char)
  | [] => none
  | c :: rest =>
      if c = rbraceC then some ([], rest)
      else
        match splitAtRBrace rest with
        | some (f, r) => some (c :: f, r)
        | none => none

/-- Numeric value of a digit run in a replacement field. -/
def digitsToNat (cs : List Char) : Nat :=
  cs.foldl (fun n c => n * 10 + (c.toNat - 48)) 0

/-- Resolve one replacement field of str.format: an empty field uses the
automatic positional counter, a digit run indexes the positional arguments,
anything else is looked up among the keyword arguments. -/
def resolveField (field : List Char) (args : List FmtArg)
    (kwargs : List (String × FmtArg)) (auto : Nat) :
    Except FmtError (FmtArg × Nat) :=
  if field = [] then
    match args.get? auto with
    | some v => .ok (v, auto + 1)
    | none => .error .indexOutOfRange
  else if field.all (fun c => c.isDigit) then
    match args.get? (digitsToNat field) with
    | some v => .ok (v, auto)
    | none => .error .indexOutOfRange
  else
    match lookupStr kwargs (String.mk field) with
    | some v => .ok (v, auto)
    | none => .error (.missingKey (String.mk field))

/-- The str.format scanner over the character list, fuelled by the character
count: literal text is copied, doubled braces escape, and each replacement
field is resolved and stringified. Format specs and attribute or index
accesses inside fields are not modelled; the repository templates use plain
named fields only. -/
def pyFormatGo (args : List FmtArg) (kwargs : List (String × FmtArg)) :
    Nat → List Char → Nat → String → Except FmtError String
  | _, [], _, acc => .ok acc
  | 0, _ :: _, _, _ => .error .noFuel
  | fuel + 1, c :: rest, auto, acc =>
      if c = lbraceC then
        match rest with
        | [] => .error .badFormat
        | c2 :: rest2 =>
            if c2 = lbraceC then
              pyFormatGo args kwargs fuel rest2 auto (acc.push lbraceC)
            else
              match splitAtRBrace (c2 :: rest2) with
              | none => .error .badFormat
              | some (field, rest3) =>
                  match resolveField field args kwargs auto with
                  | .error e => .error e
                  | .ok (v, auto2) =>
                      pyFormatGo args kwargs fuel rest3 auto2 (acc ++ pyStr v)
      else if c = rbraceC then
        match rest with
        | c2 :: rest2 =>
            if c2 = rbraceC then
              pyFormatGo args kwargs fuel rest2 auto (acc.push rbraceC)
            else .error .badFormat
        | [] => .error .badFormat
      else
        pyFormatGo args kwargs fuel rest auto (acc.push c)

/-- Python text.format(args, kwargs) on a template string. -/
def pyFormat (text : String) (args : List FmtArg)
    (kwargs : List (String × FmtArg)) : Except FmtError String :=
  pyFormatGo args kwargs (text.length + 1) text.toList 0 ""

/-- Modelled from the spec: PlayerState (defined in src/player.py, which is
not among the provided sources) maps the nation attributes loyalty, money,
security and world_opinion, all numeric, plus the nation name used by the
embed titles, to their current values. -/
structure PlayerState where
  nation_name : String
  loyalty : Int
  money : Int
  security : Int
  world_opinion : Int
  deriving DecidableEq, Repr

/-- attrs.asdict of a PlayerState: the attribute dictionary. -/
def asdict (s : PlayerState) : List (String × PyVal) :=
  [("nation_name", .str s.nation_name),
   ("loyalty", .int s.loyalty),
   ("money", .int s.money),
   ("security", .int s.security),
   ("world_opinion", .int s.world_opinion)]

/-- getattr on a PlayerState by attribute name; none models AttributeError. -/
def stateAttr? (s : PlayerState) (a : String) : Option Int :=
  if a = "loyalty" then some s.loyalty
  else if a = "money" then some s.money
  else if a = "security" then some s.security
  else if a = "world_opinion" then some s.world_opinion
  else none

/-- A Player of src/game.py: it stores the slash context, whose user id is
what the game keys its player dict on, and the PlayerState that
Player.register (src/player.py, absent from the sources) assigns; the
back-reference to the owning game is left implicit. -/
structure Player where
  id : Nat
  state : PlayerState
  deriving DecidableEq, Repr

/-- Template of src/templating.py: display text and selection weight,
defaulting to 100. -/
structure Template where
  text : String
  weight : Int := 100
  deriving DecidableEq, Repr

/-- Template.format: the source runs self.text.format(asdict(state)), so the
attribute dictionary is passed as the single positional argument and no
keyword arguments are supplied. -/
def Template.format (t : Template) (s : PlayerState) : Except PyError String :=
  match pyFormat t.text [FmtArg.dict (asdict s)] [] with
  | .ok out => .ok out
  | .error e => .error (fmtErrToPy e)

/-- total_stages = get_args(Stage), the declared stages 1, 2, 3. -/
def total_stages : List Nat := [1, 2, 3]

/-- The stage field of a StageGroup after its converter ran: a bare int, or
a tuple of stages; the sentinel all is converted to the total_stages tuple
by the converter. -/
inductive StageSpec where
  | single (s : Nat)
  | group (ss : List Nat)
  deriving DecidableEq, Repr

/-- The membership test Actor.cast_stages applies to a stage-group stage
field: equality for a bare int, containment for a tuple. -/
def StageSpec.containsStage : StageSpec → Nat → Bool
  | .single s', s => s' == s
  | .group ss, s => ss.contains s

/-- StageGroup of src/templating.py: templates tagged with the stages they
belong to. -/
structure StageGroup where
  stage : StageSpec
  templates : List Template
  deriving DecidableEq, Repr

/-- StageData of src/templating.py: a template pool and the weight list
derived from it at construction. -/
structure StageData where
  templates : List Template
  weights : List Int
  deriving DecidableEq, Repr

/-- StageData.__init__: the weights list mirrors the template list. -/
def mkStageData (ts : List Template) : StageData :=
  ⟨ts, ts.map (fun t => t.weight)⟩

/-- itertools.accumulate on the weights, carrying the running sum. -/
def cumSumsFrom (acc : Int) : List Int → List Int
  | [] => []
  | w :: ws => (acc + w) :: cumSumsFrom (acc + w) ws

/-- Cumulative weights, as random.choices computes them. -/
def cumSums (ws : List Int) : List Int := cumSumsFrom 0 ws

/-- StageData.get_random: random.choices(templates, weights, k=1)[0], with
the uniform sample x in the unit interval as a parameter. On an empty pool
the access cum_weights[-1] raises (IndexError), and a nonpositive weight
total raises (ValueError); both are the EmptyPoolError of the spec. The
drawn index is the bisection point of x times the weight total in the
cumulative weights, clamped to the last position. -/
def StageData.get_random (sd : StageData) (x : ℚ) : Except PyError Template :=
  match (cumSums sd.weights).getLast? with
  | none => .error .emptyPool
  | some total =>
      if (total : ℚ) ≤ 0 then .error .emptyPool
      else
        match sd.templates.get?
          (min ((cumSums sd.weights).findIdx
              (fun c => decide (x * (total : ℚ) < (c : ℚ))))
            (sd.templates.length - 1)) with
        | some t => .ok t
        | none => .error .indexError

/-- The per-stage pool Actor.cast_stages builds for one stage: groups whose
stage set contains the stage contribute their templates, in order. -/
def stageTemplates (stage_groups : List StageGroup) (stage : Nat) :
    List Template :=
  stage_groups.foldl
    (fun acc sg => if sg.stage.containsStage stage then acc ++ sg.templates
      else acc) []

/-- Actor.cast_stages: for every declared stage, the flattened pool of the
templates of all stage groups containing that stage. -/
def castStages (stage_groups : List StageGroup) : List (Nat × StageData) :=
  total_stages.map (fun stage => (stage, mkStageData (stageTemplates stage_groups stage)))

/-- Actor of src/templating.py. -/
structure Actor where
  name : String
  picture : String
  stages : List (Nat × StageData)
  deriving DecidableEq, Repr

/-- Actor.__init__: the per-stage pools are cast once at construction. -/
def mkActor (name picture : String) (templates : List StageGroup) : Actor :=
  ⟨name, picture, castStages templates⟩

/-- Events observable from a tick: the stage-dependent sleep, a content
delivery (embed title and rendered body sent to a player), and the death
notification Game.death_player would broadcast. -/
inductive Event where
  | sleep (t : ℚ)
  | deliver (playerId : Nat) (title : String) (body : String)
  | deathNotify (toPlayer : Nat) (dead : Nat)
  deriving DecidableEq, Repr

/-- Association-list lookup with Nat keys: Python dict subscript. -/
def dictGet? {α : Type} : List (Nat × α) → Nat → Option α
  | [], _ => none
  | kv :: rest, k => if kv.1 = k then some kv.2 else dictGet? rest k

/-- Python dict assignment: replace in place when the key is present,
append otherwise. -/
def dictSet {α : Type} : List (Nat × α) → Nat → α → List (Nat × α)
  | [], k, v => [(k, v)]
  | kv :: rest, k, v =>
      if kv.1 = k then (k, v) :: rest else kv :: dictSet rest k v

/-- Python del on a dict: drop the entry with the given key. -/
def dictDel {α : Type} : List (Nat × α) → Nat → List (Nat × α)
  | [], _ => []
  | kv :: rest, k => if kv.1 = k then rest else kv :: dictDel rest k

/-- Actor.send for a target player: look the stage pool up in the dict
(raising KeyError when the stage is absent), draw a weighted template, and
deliver it via template.ui, whose embed title is the actor name followed by
the nation name and whose description is template.format of the state. -/
def Actor.sendE (a : Actor) (gameStage : Nat) (p : Player) (x : ℚ) :
    Except PyError Event :=
  match dictGet? a.stages gameStage with
  | none => .error (.stageKeyError gameStage)
  | some sd =>
      match sd.get_random x with
      | .error e => .error e
      | .ok t =>
          match t.format p.state with
          | .error e => .error e
          | .ok body =>
              .ok (.deliver p.id (a.name ++ " of " ++ p.state.nation_name) body)

/-- The cumulative stage thresholds Game.__init__ assigns. -/
def initCumm : List ℚ := [1/4, 3/5, 1]

/-- The attribute names Game.__init__ lists for the lose-condition check. -/
def initValuesToCheck : List String :=
  ["loyalty", "money", "security", "world_opinion"]

/-- Game of src/game.py: id, the player dict, the current stage, the total
duration sampled once at creation, the cumulative per-stage thresholds and
the checked attribute names. -/
structure Game where
  id : String
  players : List (Nat × Player)
  stage : Nat
  max_time : ℚ
  cumm_percent_time_per_stage : List ℚ
  values_to_check : List String
  deriving DecidableEq, Repr

/-- Game.__init__: empty player map, stage 1, the sampled duration (the
random.uniform(12.5, 16) draw is a parameter here) and the fixed lists. -/
def mkGame (id : String) (max_time : ℚ) : Game :=
  ⟨id, [], 1, max_time, initCumm, initValuesToCheck⟩

/-- Player construction as Game.add_player performs it, keyed by the
context user id; registration (src/player.py, absent) supplies the state. -/
def mkPlayer (id : Nat) (st : PlayerState) : Player := ⟨id, st⟩

/-- Game.add_player: construct the player, register it, and assign it into
the player dict under ctx.user.id. The source performs no presence check,
so an existing entry under the same id is overwritten. -/
def add_player (g : Game) (ctxUserId : Nat) (st : PlayerState) : Game :=
  { g with players := dictSet g.players ctxUserId (mkPlayer ctxUserId st) }

/-- Game.remove_player: del on the player dict; on KeyError the source
raises its placeholder error meaning the user is in no game. -/
def remove_player (g : Game) (pid : Nat) : Except PyError Game :=
  match dictGet? g.players pid with
  | some _ => .ok { g with players := dictDel g.players pid }
  | none => .error .notFound

/-- The lose-condition test of Game.tick:
any(getattr(player.state, attr) < 0 for attr in self.values_to_check). -/
def checkNegative (g : Game) (st : PlayerState) : Bool :=
  g.values_to_check.any (fun a =>
    match stateAttr? st a with
    | some v => decide (v < 0)
    | none => false)

/-- The sleep interval of Game.tick: the base shrinks with the stage and j
is the sampled jitter (uniform(-2, 2), uniform(-2, 1.5), uniform(-1, 0.75)
respectively); a stage with no match arm leaves sleep_time unbound, raising
at its use. -/
def sleepTime (stage : Nat) (j : ℚ) : Except PyError ℚ :=
  match stage with
  | 1 => .ok (10 + j)
  | 2 => .ok (8 + j)
  | 3 => .ok (6 + j)
  | _ => .error .nameError

/-- Game.tick for one player. The character is drawn by
all_characters.get_random (src/characters.py, absent from the sources) and
is a parameter. The lose-condition branch evaluates its test and then calls
self.death_player(player) without await: the coroutine object is created
and immediately discarded, so no notification is sent, the player map is
not modified, and execution continues to the sleep and the delivery. The
returned game is therefore unchanged. -/
def tick (g : Game) (p : Player) (character : Actor) (x j : ℚ) :
    Except PyError (Game × List Event) :=
  let _deadCheck : Bool := checkNegative g p.state
  match sleepTime g.stage j with
  | .error e => .error e
  | .ok st =>
      match Actor.sendE character g.stage p x with
      | .error e => .error e
      | .ok d => .ok (g, [Event.sleep st, d])

/-- The stage-advancement step at the top of Game.loop: when the elapsed
game time exceeds the current cumulative threshold times the duration while
staying below the duration, the stage moves to the successor entry of
total_stages; list indexing out of range is none (IndexError). -/
def loopStageStep (g : Game) (game_time : ℚ) : Option Game :=
  match g.cumm_percent_time_per_stage.get? (g.stage - 1) with
  | none => none
  | some threshold =>
      if game_time > threshold * g.max_time ∧ game_time < g.max_time then
        (total_stages.get? (total_stages.indexOf g.stage + 1)).map
          (fun s => { g with stage := s })
      else
        some g

/-- The stage updates of Game.loop over a sequence of elapsed-time
observations, one per loop iteration. -/
def runLoop (g : Game) : List ℚ → Option Game
  | [] => some g
  | t :: ts =>
      match loopStageStep g t with
      | some g2 => runLoop g2 ts
      | none => none

/-- One iteration of Game.loop: the stage step, then the tick fan-out.
asyncio.gather is called with return_exceptions set, so per-player
exceptions come back as values, the surrounding except branch never fires,
and the loop proceeds; the choice of actor per player and the random draws
are parameters. -/
def loopIteration (g : Game) (game_time : ℚ) (chooseActor : Player → Actor)
    (x j : ℚ) :
    Option (Game × List (Except PyError (Game × List Event))) :=
  match loopStageStep g game_time with
  | none => none
  | some g2 =>
      some (g2, g2.players.map (fun kv => tick g2 kv.2 (chooseActor kv.2) x j))

/-- The outcome of main.get_token: either the process exits, with its exit
status and the logged messages, or a token is returned. -/
inductive TokenResult where
  | exited (code : Nat) (logs : List String)
  | token (t : String)
  deriving DecidableEq, Repr

/-- The environment variable read by main.get_token. -/
def tokenEnvVar : String := "DEFCON_BOT_TOKEN"

/-- The error logged when the token is absent; it names the variable. -/
def tokenNotFoundMsg : String :=
  "Token not found.\nPlease specify discord bot token via environment variable "
    ++ sqS ++ tokenEnvVar ++ sqS ++ "."

/-- The hint logged when python-dotenv is not installed. -/
def dotenvHintMsg : String :=
  "To read token from .env, install " ++ sqS ++ "python-dotenv" ++ sqS

/-- main.get_token: env is the environment after the optional load_dotenv,
and dotenvAvailable records whether the dotenv import succeeded. When the
variable is absent, the error is logged, the hint follows when dotenv is
missing, and exit() is called with no argument: sys.exit() raises
SystemExit(None), which terminates the process with exit status 0. -/
def get_token (env : String → Option String) (dotenvAvailable : Bool) :
    TokenResult :=
  match env tokenEnvVar with
  | some t => .token t
  | none =>
      .exited 0
        (if dotenvAvailable then [tokenNotFoundMsg]
         else [tokenNotFoundMsg, dotenvHintMsg])

/-! Concrete fixtures used by the witnesses and counterexamples. -/

/-- A state with a negative loyalty: the lose condition holds. -/
def stDead : PlayerState :=
  { nation_name := "Atlantis", loyalty := -1, money := 50, security := 50,
    world_opinion := 50 }

/-- A state with all tracked attributes non-negative. -/
def stAlive : PlayerState :=
  { nation_name := "Borduria", loyalty := 10, money := 10, security := 10,
    world_opinion := 10 }

/-- A second healthy state, used to observe an overwrite. -/
def stNew : PlayerState :=
  { nation_name := "Cydonia", loyalty := 1, money := 2, security := 3,
    world_opinion := 4 }

/-- The player about to lose, user id 1. -/
def pDead : Player := { id := 1, state := stDead }

/-- A healthy bystander player, user id 2. -/
def pAliveP : Player := { id := 2, state := stAlive }

/-- A healthy player under user id 7, for the join and leave fixtures. -/
def pSeven : Player := { id := 7, state := stAlive }

/-- A template with no replacement field, so its format always succeeds. -/
def tQuiet : Template := { text := "All is quiet." }

/-- A template whose text references the loyalty attribute by name. -/
def tLoyalty : Template := { text := "\x7bloyalty\x7d" }

/-- An actor offering the quiet template at every stage, via the sentinel
all, which the converter turns into the total_stages tuple. -/
def actorQuiet : Actor :=
  mkActor "General" "pic" [StageGroup.mk (StageSpec.group total_stages) [tQuiet]]

/-- An actor constructed from no stage groups: every pool is empty. -/
def actorBare : Actor := mkActor "Nobody" "pic" []

/-- A game holding the losing player and a bystander, duration 14. -/
def gBug : Game :=
  { mkGame "bug" 14 with players := [(1, pDead), (2, pAliveP)] }

/-- A game already holding player 7, for the duplicate-join and the leave
fixtures. -/
def gSeven : Game :=
  { mkGame "seven" 14 with players := [(7, pSeven)] }

/-- The scenario game of the spec: duration 14, standard thresholds, at the
given stage. -/
def scenGame (s : Nat) : Game := { mkGame "scenario" 14 with stage := s }


/-- A stage group for stage 1 only, with the quiet template. -/
def grpStage1 : StageGroup := StageGroup.mk (StageSpec.single 1) [tQuiet]

/-! Helper lemmas. -/

/-- Looking a key up after a dict assignment to it yields the new value. -/
theorem dictGet?_set_self {α : Type} (d : List (Nat × α)) (k : Nat) (v : α) :
    dictGet? (dictSet d k v) k = some v := by
  induction d with
  | nil => simp [dictSet, dictGet?]
  | cons kv rest ih =>
      by_cases h : kv.1 = k
      · simp [dictSet, h, dictGet?]
      · simp [dictSet, h, dictGet?, ih]

/-- A dict assignment leaves every other key unchanged. -/
theorem dictGet?_set_other {α : Type} (d : List (Nat × α)) (k : Nat) (v : α)
    (q : Nat) (hq : q ≠ k) : dictGet? (dictSet d k v) q = dictGet? d q := by
  induction d with
  | nil => simp [dictSet, dictGet?, Ne.symm hq]
  | cons kv rest ih =>
      by_cases h : kv.1 = k
      · simp [dictSet, h, dictGet?, Ne.symm hq]
      · simp only [dictSet, if_neg h, dictGet?]
        by_cases h2 : kv.1 = q
        · rw [if_pos h2, if_pos h2]
        · rw [if_neg h2, if_neg h2, ih]

/-- A key absent from every entry looks up to none. -/
theorem dictGet?_eq_none {α : Type} (d : List (Nat × α)) (k : Nat)
    (h : ∀ kv ∈ d, kv.1 ≠ k) : dictGet? d k = none := by
  induction d with
  | nil => rfl
  | cons kv rest ih =>
      simp only [dictGet?]
      rw [if_neg (h kv (by simp))]
      exact ih (fun kv2 h2 => h kv2 (by simp [h2]))

/-- After del, the deleted key is gone, provided the keys were unique. -/
theorem dictGet?_del_self {α : Type} (d : List (Nat × α)) (k : Nat)
    (h : (d.map Prod.fst).Nodup) : dictGet? (dictDel d k) k = none := by
  induction d with
  | nil => rfl
  | cons kv rest ih =>
      simp only [List.map_cons, List.nodup_cons] at h
      by_cases hk : kv.1 = k
      · simp only [dictDel, if_pos hk]
        refine dictGet?_eq_none rest k (fun kv2 h2 heq => ?_)
        exact h.1 (by rw [hk, ← heq]; exact List.mem_map_of_mem Prod.fst h2)
      · simp only [dictDel, if_neg hk, dictGet?, if_neg hk]
        exact ih h.2

/-- del leaves every other key unchanged. -/
theorem dictGet?_del_other {α : Type} (d : List (Nat × α)) (k q : Nat)
    (hq : q ≠ k) : dictGet? (dictDel d k) q = dictGet? d q := by
  induction d with
  | nil => rfl
  | cons kv rest ih =>
      by_cases hk : kv.1 = k
      · simp only [dictDel, if_pos hk, dictGet?]
        rw [if_neg (by rw [hk]; exact Ne.symm hq)]
      · simp only [dictDel, if_neg hk, dictGet?]
        by_cases h2 : kv.1 = q
        · rw [if_pos h2, if_pos h2]
        · rw [if_neg h2, if_neg h2, ih]

/-- Drawing from an empty pool fails: the cumulative-weight list is empty,
so its last element does not exist. -/
theorem get_random_empty (x : ℚ) :
    (mkStageData []).get_random x = .error .emptyPool := rfl

/-- Drawing from a one-template pool of positive weight returns that
template, whatever the sample: the clamped index is zero. -/
theorem get_random_singleton (t : Template) (x : ℚ) (hw : 0 < t.weight) :
    (mkStageData [t]).get_random x = .ok t := by
  unfold StageData.get_random
  split
  · rename_i heq
    rw [show cumSums (mkStageData [t]).weights = [0 + t.weight] from rfl] at heq
    simp at heq
  · rename_i total heq
    rw [show cumSums (mkStageData [t]).weights = [0 + t.weight] from rfl] at heq
    simp only [List.getLast?_singleton, Option.some.injEq] at heq
    subst heq
    rw [if_neg (by rw [not_le, zero_add]; exact_mod_cast hw)]
    rw [show (mkStageData [t]).templates.length - 1 = 0 from rfl, Nat.min_zero]
    rfl

/-- A successful draw is a member of the pool. -/
theorem get_random_mem (sd : StageData) (x : ℚ) (t : Template)
    (h : sd.get_random x = .ok t) : t ∈ sd.templates := by
  unfold StageData.get_random at h
  split at h
  · simp at h
  · split at h
    · simp at h
    · split at h
      · rename_i t2 heq
        simp only [Except.ok.injEq] at h
        subst h
        exact List.get?_mem heq
      · simp at h

/-- A failing draw is one of the two pool failures. -/
theorem get_random_error_shape (sd : StageData) (x : ℚ) (e : PyError)
    (h : sd.get_random x = .error e) :
    e = .emptyPool ∨ e = .indexError := by
  unfold StageData.get_random at h
  split at h
  · simp only [Except.error.injEq] at h
    exact Or.inl h.symm
  · split at h
    · simp only [Except.error.injEq] at h
      exact Or.inl h.symm
    · split at h
      · simp at h
      · simp only [Except.error.injEq] at h
        exact Or.inr h.symm

/-- A formatting failure is the image of a scanner error. -/
theorem format_error_shape (t : Template) (s : PlayerState) (e : PyError)
    (h : t.format s = .error e) : ∃ fe, e = fmtErrToPy fe := by
  unfold Template.format at h
  split at h
  · simp at h
  · rename_i fe heq
    simp only [Except.error.injEq] at h
    exact ⟨fe, h.symm⟩

/-- No scanner error surfaces as the stage-lookup KeyError. -/
theorem fmtErrToPy_ne_stageKey (fe : FmtError) (k : Nat) :
    fmtErrToPy fe ≠ .stageKeyError k := by
  cases fe <;> simp [fmtErrToPy]

/-- The fold Actor.cast_stages runs equals the filtered concatenation of
the group template lists, in group order. -/
theorem foldl_filter_bind (gs : List StageGroup) (st : Nat)
    (acc : List Template) :
    gs.foldl (fun acc sg =>
        if sg.stage.containsStage st then acc ++ sg.templates else acc) acc
      = acc ++ (gs.filter (fun sg => sg.stage.containsStage st)).flatMap
          (fun sg => sg.templates) := by
  induction gs generalizing acc with
  | nil => simp
  | cons sg gs ih =>
      simp only [List.foldl_cons, List.filter_cons]
      by_cases h : sg.stage.containsStage st
      · rw [if_pos h, ih, if_pos h]
        simp [List.append_assoc]
      · rw [if_neg h, ih, if_neg h]

/-- The per-stage pool is the in-order concatenation of the templates of
the groups containing the stage. -/
theorem stageTemplates_eq (gs : List StageGroup) (st : Nat) :
    stageTemplates gs st =
      (gs.filter (fun sg => sg.stage.containsStage st)).flatMap
        (fun sg => sg.templates) := by
  unfold stageTemplates
  simpa using foldl_filter_bind gs st []

/-- A successful stage lookup in a cast actor identifies the pool: the
stage is declared and the pool is the stage-filtered one. -/
theorem castStages_lookup (gs : List StageGroup) (st : Nat) (sd : StageData)
    (h : dictGet? (castStages gs) st = some sd) :
    st ∈ total_stages ∧ sd = mkStageData (stageTemplates gs st) := by
  have hc : castStages gs = [(1, mkStageData (stageTemplates gs 1)),
      (2, mkStageData (stageTemplates gs 2)),
      (3, mkStageData (stageTemplates gs 3))] := rfl
  rw [hc] at h
  simp only [dictGet?] at h
  by_cases h1 : (1 : Nat) = st
  · subst h1
    rw [if_pos rfl] at h
    simp only [Option.some.injEq] at h
    exact ⟨by decide, h.symm⟩
  · rw [if_neg h1] at h
    by_cases h2 : (2 : Nat) = st
    · subst h2
      rw [if_pos rfl] at h
      simp only [Option.some.injEq] at h
      exact ⟨by decide, h.symm⟩
    · rw [if_neg h2] at h
      by_cases h3 : (3 : Nat) = st
      · subst h3
        rw [if_pos rfl] at h
        simp only [Option.some.injEq] at h
        exact ⟨by decide, h.symm⟩
      · rw [if_neg h3] at h
        simp [dictGet?] at h

/-- Every declared stage has an entry in a cast actor, whatever the groups;
the entry is the stage-filtered pool. -/
theorem castStages_lookup_total (gs : List StageGroup) (st : Nat)
    (hs : st ∈ total_stages) :
    dictGet? (castStages gs) st = some (mkStageData (stageTemplates gs st)) := by
  have h3 : st = 1 ∨ st = 2 ∨ st = 3 := by simpa [total_stages] using hs
  rcases h3 with h | h | h <;> subst h <;> rfl

/-! Claim theorems. -/

/-- C1: the lose condition holds for the player with negative loyalty, yet
the tick leaves the game, and with it the player map, untouched and still
delivers content to that player: Game.tick calls self.death_player(player)
without await, so the death-handling coroutine is discarded, nobody is
notified, the player is not removed, and the tick does not exit early. The
claimed behaviour, death handling exactly once followed by an early exit
with no content selection, does not occur. -/
theorem tick_negative_state_is_ignored :
    checkNegative gBug stDead = true ∧
    tick gBug pDead actorQuiet 0 0 =
      .ok (gBug, [Event.sleep 10,
        Event.deliver 1 "General of Atlantis" "All is quiet."]) ∧
    dictGet? gBug.players 1 = some pDead := by
  refine ⟨rfl, ?_, rfl⟩
  have h1 : sleepTime gBug.stage (0 : ℚ) = .ok 10 := by
    rw [show gBug.stage = 1 from rfl]
    unfold sleepTime
    norm_num
  have h2 : Actor.sendE actorQuiet gBug.stage pDead 0 =
      .ok (Event.deliver 1 "General of Atlantis" "All is quiet.") := by
    rw [show gBug.stage = 1 from rfl]
    simp only [Actor.sendE,
      show dictGet? actorQuiet.stages 1 = some (mkStageData [tQuiet]) from rfl,
      get_random_singleton tQuiet 0 (by decide),
      show tQuiet.format pDead.state = .ok "All is quiet." from rfl]
    rfl
  simp only [tick, h1, h2]

/-- C7: the loyalty attribute is present in the state dictionary, yet
formatting a template that names it fails with a KeyError on loyalty:
Template.format passes asdict(state) as the single positional argument of
str.format instead of expanding it into keyword arguments, so every named
replacement field misses. The claim that rendering succeeds whenever all
placeholders name present attributes is violated at this input. -/
theorem format_present_attribute_fails :
    lookupStr (asdict stAlive) "loyalty" = some (PyVal.int 10) ∧
    Template.format tLoyalty stAlive = .error (.fieldKeyError "loyalty") :=
  ⟨rfl, rfl⟩

/-- C9 counterexample: with the token variable absent from the environment,
get_token logs the descriptive message and exits with status 0, because
exit() is called with no argument; the claimed non-zero exit code is false
at this input. -/
theorem get_token_missing_exits_zero :
    get_token (fun _ => none) true = .exited 0 [tokenNotFoundMsg] :=
  rfl

/-- C9 amended: when the bot token credential is absent from the
environment, startup fails: the process logs a descriptive error naming
DEFCON_BOT_TOKEN and exits, with exit status 0 since exit() is called with
no argument, and never returns a token. -/
theorem get_token_missing_behaviour (env : String → Option String) (d : Bool)
    (h : env tokenEnvVar = none) :
    (∃ logs, get_token env d = .exited 0 logs ∧ tokenNotFoundMsg ∈ logs) ∧
    ∀ t, get_token env d ≠ .token t := by
  unfold get_token
  rw [h]
  constructor
  · cases d <;> simp
  · intro t hcontra
    cases d <;> simp at hcontra

/-- C9 witness: the amended theorem applied to the empty environment. -/
theorem get_token_missing_behaviour_witness :
    (∃ logs, get_token (fun _ => none) true = .exited 0 logs ∧
      tokenNotFoundMsg ∈ logs) ∧
    get_token (fun _ => none) true ≠ .token "x" :=
  ⟨(get_token_missing_behaviour (fun _ => none) true rfl).1,
   (get_token_missing_behaviour (fun _ => none) true rfl).2 "x"⟩

/-- C4 counterexample: player 7 is already present, yet add_player with the
same identity completes without any error and changes the player map,
overwriting the stored player; the claimed IdempotencyError rejection with
an unchanged map is false at this input. -/
theorem add_player_duplicate_counterexample :
    dictGet? gSeven.players 7 = some pSeven ∧
    dictGet? (add_player gSeven 7 stNew).players 7 = some (mkPlayer 7 stNew) ∧
    (add_player gSeven 7 stNew).players ≠ gSeven.players := by
  refine ⟨rfl, rfl, ?_⟩
  decide

/-- C4 amended: add_player performs no presence check and cannot fail on a
duplicate: for any identity it constructs and registers a Player and writes
it into the map under that identity, overwriting any existing entry and
leaving every other entry unchanged. -/
theorem add_player_overwrites (g : Game) (pid : Nat) (st : PlayerState) :
    dictGet? (add_player g pid st).players pid = some (mkPlayer pid st) ∧
    ∀ q, q ≠ pid →
      dictGet? (add_player g pid st).players q = dictGet? g.players q := by
  refine ⟨?_, ?_⟩
  · exact dictGet?_set_self g.players pid (mkPlayer pid st)
  · intro q hq
    exact dictGet?_set_other g.players pid (mkPlayer pid st) q hq

/-- C4 witness: the amended theorem applied to the duplicate join of player
7, also read back at the unrelated id 9. -/
theorem add_player_overwrites_witness :
    dictGet? (add_player gSeven 7 stNew).players 7 = some (mkPlayer 7 stNew) ∧
    dictGet? (add_player gSeven 7 stNew).players 9 =
      dictGet? gSeven.players 9 :=
  ⟨(add_player_overwrites gSeven 7 stNew).1,
   (add_player_overwrites gSeven 7 stNew).2 9 (by decide)⟩

/-- Unfolding of the stage step once the threshold lookup is known. -/
theorem loopStageStep_eq (g : Game) (t th : ℚ)
    (h : g.cumm_percent_time_per_stage.get? (g.stage - 1) = some th) :
    loopStageStep g t =
      if t > th * g.max_time ∧ t < g.max_time then
        (total_stages.get? (total_stages.indexOf g.stage + 1)).map
          (fun s => { g with stage := s })
      else some g := by
  unfold loopStageStep
  rw [h]

/-- One stage step from a declared stage with the standard thresholds never
fails, moves the stage forward by at most one, keeps it declared, and
leaves every other field unchanged. -/
theorem stage_step_spec (g : Game) (t : ℚ)
    (hc : g.cumm_percent_time_per_stage = initCumm)
    (hs : g.stage ∈ total_stages) :
    ∃ g1, loopStageStep g t = some g1 ∧
      (g1.stage = g.stage ∨ g1.stage = g.stage + 1) ∧
      g1.stage ∈ total_stages ∧
      g1.cumm_percent_time_per_stage = initCumm ∧
      g1.max_time = g.max_time ∧
      g1.players = g.players ∧
      g.stage ≤ g1.stage := by
  have h3 : g.stage = 1 ∨ g.stage = 2 ∨ g.stage = 3 := by
    simpa [total_stages] using hs
  rcases h3 with h | h | h
  · have hth : g.cumm_percent_time_per_stage.get? (g.stage - 1) =
        some (1/4 : ℚ) := by rw [hc, h]; rfl
    rw [loopStageStep_eq g t (1/4) hth]
    by_cases hcond : t > (1/4 : ℚ) * g.max_time ∧ t < g.max_time
    · rw [if_pos hcond]
      have hnx : total_stages.get? (total_stages.indexOf g.stage + 1) =
          some 2 := by rw [h]; rfl
      rw [hnx, Option.map_some']
      refine ⟨{ g with stage := 2 }, rfl, Or.inr (by rw [h]), ?_,
        hc, rfl, rfl, ?_⟩
      · show (2 : Nat) ∈ total_stages
        decide
      · show g.stage ≤ 2
        rw [h]
        decide
    · rw [if_neg hcond]
      exact ⟨g, rfl, Or.inl rfl, hs, hc, rfl, rfl, le_refl _⟩
  · have hth : g.cumm_percent_time_per_stage.get? (g.stage - 1) =
        some (3/5 : ℚ) := by rw [hc, h]; rfl
    rw [loopStageStep_eq g t (3/5) hth]
    by_cases hcond : t > (3/5 : ℚ) * g.max_time ∧ t < g.max_time
    · rw [if_pos hcond]
      have hnx : total_stages.get? (total_stages.indexOf g.stage + 1) =
          some 3 := by rw [h]; rfl
      rw [hnx, Option.map_some']
      refine ⟨{ g with stage := 3 }, rfl, Or.inr (by rw [h]), ?_,
        hc, rfl, rfl, ?_⟩
      · show (3 : Nat) ∈ total_stages
        decide
      · show g.stage ≤ 3
        rw [h]
        decide
    · rw [if_neg hcond]
      exact ⟨g, rfl, Or.inl rfl, hs, hc, rfl, rfl, le_refl _⟩
  · have hth : g.cumm_percent_time_per_stage.get? (g.stage - 1) =
        some (1 : ℚ) := by rw [hc, h]; rfl
    rw [loopStageStep_eq g t 1 hth]
    have hncond : ¬(t > (1 : ℚ) * g.max_time ∧ t < g.max_time) := by
      rintro ⟨ha, hb⟩
      rw [one_mul] at ha
      linarith
    rw [if_neg hncond]
    exact ⟨g, rfl, Or.inl rfl, hs, hc, rfl, rfl, le_refl _⟩

/-- A declared stage is at most the declared maximum. -/
theorem stage_mem_le_three (s : Nat) (h : s ∈ total_stages) : s ≤ 3 := by
  have h3 : s = 1 ∨ s = 2 ∨ s = 3 := by simpa [total_stages] using h
  rcases h3 with h | h | h <;> omega

/-- Over any observation sequence the loop never fails and the stage only
moves forward within the declared stages. -/
theorem runLoop_spec (ts : List ℚ) (g : Game)
    (hc : g.cumm_percent_time_per_stage = initCumm)
    (hs : g.stage ∈ total_stages) :
    ∃ g2, runLoop g ts = some g2 ∧ g.stage ≤ g2.stage ∧
      g2.stage ∈ total_stages := by
  induction ts generalizing g with
  | nil => exact ⟨g, rfl, le_refl _, hs⟩
  | cons t ts ih =>
      obtain ⟨g1, hstep, _, hmem1, hc1, _, _, hle1⟩ := stage_step_spec g t hc hs
      obtain ⟨g2, hrun, hle2, hmem2⟩ := ih g1 hc1 hmem1
      refine ⟨g2, ?_, le_trans hle1 hle2, hmem2⟩
      simp only [runLoop, hstep]
      exact hrun

/-- C2: from any reachable game (standard thresholds, declared stage), over
every sequence of elapsed-time observations the loop keeps running, the
stage is monotonically non-decreasing, never exceeds the declared maximum
3, and each single iteration leaves the stage unchanged or advances it to
the next declared value. -/
theorem game_stage_monotone_bounded (g : Game) (ts : List ℚ)
    (hc : g.cumm_percent_time_per_stage = initCumm)
    (hs : g.stage ∈ total_stages) :
    (∃ g2, runLoop g ts = some g2 ∧ g.stage ≤ g2.stage ∧ g2.stage ≤ 3) ∧
    ∀ t, ∃ g1, loopStageStep g t = some g1 ∧
      (g1.stage = g.stage ∨ g1.stage = g.stage + 1) ∧ g1.stage ≤ 3 := by
  constructor
  · obtain ⟨g2, hrun, hle, hmem⟩ := runLoop_spec ts g hc hs
    exact ⟨g2, hrun, hle, stage_mem_le_three g2.stage hmem⟩
  · intro t
    obtain ⟨g1, hstep, hor, hmem, _⟩ := stage_step_spec g t hc hs
    exact ⟨g1, hstep, hor, stage_mem_le_three g1.stage hmem⟩

/-- C2 witness: a freshly created game run over three observations. -/
theorem game_stage_monotone_bounded_witness :
    (∃ g2, runLoop (mkGame "w" 14) [3, 4, 9] = some g2 ∧
      (mkGame "w" 14).stage ≤ g2.stage ∧ g2.stage ≤ 3) ∧
    ∃ g1, loopStageStep (mkGame "w" 14) 4 = some g1 ∧
      (g1.stage = (mkGame "w" 14).stage ∨
        g1.stage = (mkGame "w" 14).stage + 1) ∧ g1.stage ≤ 3 :=
  ⟨(game_stage_monotone_bounded (mkGame "w" 14) [3, 4, 9] rfl (by decide)).1,
   (game_stage_monotone_bounded (mkGame "w" 14) [3, 4, 9] rfl (by decide)).2 4⟩

/-- C3: for a game of duration 14 with the standard thresholds the stage
step advances the stage by one exactly when the elapsed time exceeds the
current cumulative threshold times 14 while staying below 14, and in the
spec scenario the stage stays 1 at elapsed 3, advances 1 to 2 at elapsed 4,
and advances 2 to 3 at elapsed 9. -/
theorem stage_advance_scenario (g : Game) (t : ℚ)
    (hT : g.max_time = 14)
    (hc : g.cumm_percent_time_per_stage = initCumm)
    (hs : g.stage ∈ total_stages) :
    (∃ g1, loopStageStep g t = some g1 ∧
      ((t > initCumm.getD (g.stage - 1) 0 * 14 ∧ t < 14 ∧
          g1.stage = g.stage + 1) ∨
        (¬(t > initCumm.getD (g.stage - 1) 0 * 14 ∧ t < 14) ∧
          g1.stage = g.stage))) ∧
    loopStageStep (scenGame 1) 3 = some (scenGame 1) ∧
    loopStageStep (scenGame 1) 4 = some (scenGame 2) ∧
    loopStageStep (scenGame 2) 9 = some (scenGame 3) := by
  refine ⟨?_, ?_, ?_, ?_⟩
  · have h3 : g.stage = 1 ∨ g.stage = 2 ∨ g.stage = 3 := by
      simpa [total_stages] using hs
    rcases h3 with h | h | h
    · have hth : g.cumm_percent_time_per_stage.get? (g.stage - 1) =
          some (1/4 : ℚ) := by rw [hc, h]; rfl
      have hgd : initCumm.getD (g.stage - 1) 0 = (1/4 : ℚ) := by rw [h]; rfl
      rw [loopStageStep_eq g t (1/4) hth, hT, hgd]
      by_cases hcond : t > (1/4 : ℚ) * 14 ∧ t < 14
      · rw [if_pos hcond]
        have hnx : total_stages.get? (total_stages.indexOf g.stage + 1) =
            some 2 := by rw [h]; rfl
        rw [hnx, Option.map_some']
        exact ⟨_, rfl, Or.inl ⟨hcond.1, hcond.2, by rw [h]⟩⟩
      · rw [if_neg hcond]
        exact ⟨g, rfl, Or.inr ⟨hcond, rfl⟩⟩
    · have hth : g.cumm_percent_time_per_stage.get? (g.stage - 1) =
          some (3/5 : ℚ) := by rw [hc, h]; rfl
      have hgd : initCumm.getD (g.stage - 1) 0 = (3/5 : ℚ) := by rw [h]; rfl
      rw [loopStageStep_eq g t (3/5) hth, hT, hgd]
      by_cases hcond : t > (3/5 : ℚ) * 14 ∧ t < 14
      · rw [if_pos hcond]
        have hnx : total_stages.get? (total_stages.indexOf g.stage + 1) =
            some 3 := by rw [h]; rfl
        rw [hnx, Option.map_some']
        exact ⟨_, rfl, Or.inl ⟨hcond.1, hcond.2, by rw [h]⟩⟩
      · rw [if_neg hcond]
        exact ⟨g, rfl, Or.inr ⟨hcond, rfl⟩⟩
    · have hth : g.cumm_percent_time_per_stage.get? (g.stage - 1) =
          some (1 : ℚ) := by rw [hc, h]; rfl
      have hgd : initCumm.getD (g.stage - 1) 0 = (1 : ℚ) := by rw [h]; rfl
      rw [loopStageStep_eq g t 1 hth, hT, hgd]
      have hncond : ¬(t > (1 : ℚ) * 14 ∧ t < 14) := by
        rintro ⟨ha, hb⟩
        rw [one_mul] at ha
        linarith
      rw [if_neg hncond]
      exact ⟨g, rfl, Or.inr ⟨hncond, rfl⟩⟩
  · rw [loopStageStep_eq (scenGame 1) 3 (1/4) rfl,
      show (scenGame 1).max_time = (14 : ℚ) from rfl,
      if_neg (by norm_num : ¬((3 : ℚ) > 1/4 * 14 ∧ (3 : ℚ) < 14))]
  · rw [loopStageStep_eq (scenGame 1) 4 (1/4) rfl,
      show (scenGame 1).max_time = (14 : ℚ) from rfl,
      if_pos (show (4 : ℚ) > 1/4 * 14 ∧ (4 : ℚ) < 14 from
        ⟨by norm_num, by norm_num⟩)]
    rfl
  · rw [loopStageStep_eq (scenGame 2) 9 (3/5) rfl,
      show (scenGame 2).max_time = (14 : ℚ) from rfl,
      if_pos (show (9 : ℚ) > 3/5 * 14 ∧ (9 : ℚ) < 14 from
        ⟨by norm_num, by norm_num⟩)]
    rfl

/-- C3 witness: the scenario conjuncts, via the theorem instantiated at the
scenario game and elapsed time 4. -/
theorem stage_advance_scenario_witness :
    loopStageStep (scenGame 1) 3 = some (scenGame 1) ∧
    loopStageStep (scenGame 1) 4 = some (scenGame 2) ∧
    loopStageStep (scenGame 2) 9 = some (scenGame 3) :=
  (stage_advance_scenario (scenGame 1) 4 rfl rfl (by decide)).2

/-- C5: a template selected for a stage from a cast actor always belongs to
a stage group whose stage set contains that stage, and the per-stage pool
drawn from is the concatenation of the templates of those groups in their
order of insertion. -/
theorem actor_select_stage_gated (name pic : String)
    (groups : List StageGroup) (stage : Nat) (sd : StageData) (x : ℚ)
    (t : Template)
    (hsd : dictGet? (mkActor name pic groups).stages stage = some sd)
    (ht : sd.get_random x = .ok t) :
    (∃ sg, sg ∈ groups ∧ sg.stage.containsStage stage = true ∧
      t ∈ sg.templates) ∧
    sd.templates =
      (groups.filter (fun sg => sg.stage.containsStage stage)).flatMap
        (fun sg => sg.templates) := by
  have hcast : dictGet? (castStages groups) stage = some sd := hsd
  obtain ⟨hmem, hpool⟩ := castStages_lookup groups stage sd hcast
  subst hpool
  have htm : t ∈ (mkStageData (stageTemplates groups stage)).templates :=
    get_random_mem _ x t ht
  rw [show (mkStageData (stageTemplates groups stage)).templates =
      stageTemplates groups stage from rfl, stageTemplates_eq] at htm
  constructor
  · obtain ⟨sg, hsg, htsg⟩ := List.mem_flatMap.mp htm
    obtain ⟨hsg_mem, hsg_filter⟩ := List.mem_filter.mp hsg
    exact ⟨sg, hsg_mem, hsg_filter, htsg⟩
  · rw [show (mkStageData (stageTemplates groups stage)).templates =
      stageTemplates groups stage from rfl, stageTemplates_eq]

/-- C5 witness: the theorem applied to an actor with a single stage-1 group
holding the quiet template, at stage 1. -/
theorem actor_select_stage_gated_witness :
    (∃ sg, sg ∈ [grpStage1] ∧ sg.stage.containsStage 1 = true ∧
      tQuiet ∈ sg.templates) ∧
    (mkStageData [tQuiet]).templates =
      ([grpStage1].filter (fun sg => sg.stage.containsStage 1)).flatMap
        (fun sg => sg.templates) :=
  actor_select_stage_gated "Ann" "p" [grpStage1] 1 (mkStageData [tQuiet]) 0
    tQuiet rfl (get_random_singleton tQuiet 0 (by decide))

/-- C6: when the pool an actor precomputed for the current declared stage is
empty, the selection fails with the empty-pool error, the tick for that
player fails with it (so no event is produced), and the loop iteration
still completes: the gather returns the failure as a value among the
per-player results and the scheduler does not crash. -/
theorem empty_pool_no_event (name pic : String) (groups : List StageGroup)
    (g : Game) (p : Player) (pid : Nat) (sd : StageData) (x j t : ℚ)
    (chooseActor : Player → Actor)
    (hs : g.stage ∈ total_stages)
    (hsd : dictGet? (mkActor name pic groups).stages g.stage = some sd)
    (hempty : sd.templates = [])
    (hchoose : chooseActor p = mkActor name pic groups)
    (hstep : loopStageStep g t = some g)
    (hp : (pid, p) ∈ g.players) :
    Actor.sendE (mkActor name pic groups) g.stage p x = .error .emptyPool ∧
    tick g p (mkActor name pic groups) x j = .error .emptyPool ∧
    ∃ results, loopIteration g t chooseActor x j = some (g, results) ∧
      Except.error PyError.emptyPool ∈ results := by
  obtain ⟨hmem, hpool⟩ := castStages_lookup groups g.stage sd hsd
  have hl : stageTemplates groups g.stage = [] := by
    rw [hpool] at hempty
    exact hempty
  have hrand : sd.get_random x = .error .emptyPool := by
    rw [hpool, hl]
    exact get_random_empty x
  have hsend : Actor.sendE (mkActor name pic groups) g.stage p x =
      .error .emptyPool := by
    simp only [Actor.sendE, hsd, hrand]
  have h3 : g.stage = 1 ∨ g.stage = 2 ∨ g.stage = 3 := by
    simpa [total_stages] using hs
  have hsleep : ∃ st, sleepTime g.stage j = .ok st := by
    rcases h3 with h | h | h <;> rw [h] <;> exact ⟨_, rfl⟩
  obtain ⟨st, hst⟩ := hsleep
  have htick : tick g p (mkActor name pic groups) x j = .error .emptyPool := by
    simp only [tick, hst, hsend]
  refine ⟨hsend, htick, ?_⟩
  refine ⟨g.players.map (fun kv => tick g kv.2 (chooseActor kv.2) x j), ?_, ?_⟩
  · simp only [loopIteration, hstep]
  · refine List.mem_map.mpr ⟨(pid, p), hp, ?_⟩
    show tick g p (chooseActor p) x j = _
    rw [hchoose]
    exact htick

/-- C6 witness: the theorem applied to the bare actor, whose stage-1 pool is
empty, in the one-player game at elapsed time 0. -/
theorem empty_pool_no_event_witness :
    Actor.sendE (mkActor "Nobody" "pic" []) gSeven.stage pSeven 0 =
      .error .emptyPool ∧
    tick gSeven pSeven (mkActor "Nobody" "pic" []) 0 0 = .error .emptyPool ∧
    ∃ results, loopIteration gSeven 0 (fun _ => mkActor "Nobody" "pic" []) 0 0
        = some (gSeven, results) ∧
      Except.error PyError.emptyPool ∈ results :=
  empty_pool_no_event "Nobody" "pic" [] gSeven pSeven 7 (mkStageData []) 0 0 0
    (fun _ => mkActor "Nobody" "pic" []) (by decide) rfl rfl rfl
    (by rw [loopStageStep_eq gSeven 0 (1/4) rfl,
          show gSeven.max_time = (14 : ℚ) from rfl,
          if_neg (by norm_num : ¬((0 : ℚ) > 1/4 * 14 ∧ (0 : ℚ) < 14))])
    (by decide)

/-- C8: remove_player on an absent identity fails, surfacing the error the
spec names NotFoundError, and since it fails before mutating, the map is
unchanged; on a present identity it deletes exactly that player, leaving
every other entry in place. The player map is a Python dict, so its keys
are unique. -/
theorem remove_player_correct (g : Game) (pid : Nat)
    (hnodup : (g.players.map Prod.fst).Nodup) :
    (dictGet? g.players pid = none →
      remove_player g pid = .error .notFound) ∧
    ∀ p, dictGet? g.players pid = some p →
      remove_player g pid = .ok { g with players := dictDel g.players pid } ∧
      dictGet? (dictDel g.players pid) pid = none ∧
      ∀ q, q ≠ pid →
        dictGet? (dictDel g.players pid) q = dictGet? g.players q := by
  constructor
  · intro h
    unfold remove_player
    rw [h]
  · intro p hp
    refine ⟨?_, dictGet?_del_self g.players pid hnodup,
      fun q hq => dictGet?_del_other g.players pid q hq⟩
    unfold remove_player
    rw [hp]

/-- C8 witness: the theorem applied to the one-player game, removing the
present player 7 and reading back the unrelated id 9. -/
theorem remove_player_correct_witness :
    remove_player gSeven 7 =
      .ok { gSeven with players := dictDel gSeven.players 7 } ∧
    dictGet? (dictDel gSeven.players 7) 7 = none ∧
    dictGet? (dictDel gSeven.players 7) 9 = dictGet? gSeven.players 9 := by
  have h := (remove_player_correct gSeven 7 (by decide)).2 pSeven rfl
  exact ⟨h.1, h.2.1, h.2.2 9 (by decide)⟩

/-- C10: for every actor construction, including from an empty group list,
the precomputed per-stage map has an entry for every declared stage, so
the stage lookup in Actor.send never raises for a game at a declared
stage: send never fails with the stage KeyError. -/
theorem cast_stages_total_lookup (name pic : String)
    (groups : List StageGroup) (stage : Nat) (hs : stage ∈ total_stages) :
    ∃ sd, dictGet? (mkActor name pic groups).stages stage = some sd ∧
      ∀ p x, Actor.sendE (mkActor name pic groups) stage p x ≠
        .error (.stageKeyError stage) := by
  have hl : dictGet? (mkActor name pic groups).stages stage =
      some (mkStageData (stageTemplates groups stage)) :=
    castStages_lookup_total groups stage hs
  refine ⟨mkStageData (stageTemplates groups stage), hl, ?_⟩
  intro p x hcontra
  unfold Actor.sendE at hcontra
  rw [hl] at hcontra
  have hcontra2 :
      (match (mkStageData (stageTemplates groups stage)).get_random x with
        | Except.error e => (Except.error e : Except PyError Event)
        | Except.ok t =>
          match t.format p.state with
          | Except.error e => Except.error e
          | Except.ok body =>
            Except.ok (Event.deliver p.id
              ((mkActor name pic groups).name ++ " of " ++
                p.state.nation_name) body)) =
        Except.error (PyError.stageKeyError stage) := hcontra
  clear hcontra
  split at hcontra2
  · rename_i e heq
    rcases get_random_error_shape _ x e heq with h | h <;> subst h <;>
      simp at hcontra2
  · rename_i tpl heq
    split at hcontra2
    · rename_i e heq2
      obtain ⟨fe, hfe⟩ := format_error_shape tpl p.state e heq2
      subst hfe
      simp only [Except.error.injEq] at hcontra2
      exact fmtErrToPy_ne_stageKey fe stage hcontra2
    · simp at hcontra2

/-- C10 witness: the theorem applied to the bare actor at stage 2; its
entry exists (with an empty pool) and send does not raise the stage
KeyError there. -/
theorem cast_stages_total_lookup_witness :
    dictGet? (mkActor "Nobody" "pic" []).stages 2 = some (mkStageData []) ∧
    Actor.sendE (mkActor "Nobody" "pic" []) 2 pSeven 0 ≠
      .error (.stageKeyError 2) := by
  obtain ⟨sd, hsd, hne⟩ :=
    cast_stages_total_lookup "Nobody" "pic" [] 2 (by decide)
  exact ⟨rfl, hne pSeven 0⟩
